import Mathlib

/-!
Shallow embedding of the settings module of the desktop repository
(src/src/common/settings.js and its near-identical duplicate
src/unnamed/part_000), together with theorems settling the frozen claims
about it.  JavaScript dynamic values are modelled by a small inductive
fragment covering exactly the shapes this code produces; file-system
side effects are modelled by explicit state passing and operation traces.
-/

namespace Settings

/-- Fragment of JavaScript runtime values that the settings code manipulates:
strings, numbers, booleans and undefined. -/
inductive JsVal where
  | str (s : String)
  | num (n : Int)
  | boolean (b : Bool)
  | undef
deriving DecidableEq, Repr

/-- The JavaScript typeof operator, restricted to the modelled fragment. -/
def jsTypeof : JsVal → String
  | JsVal.str _ => "string"
  | JsVal.num _ => "number"
  | JsVal.boolean _ => "boolean"
  | JsVal.undef => "undefined"

/-- The JavaScript binary + operator on the cases this code exercises:
string concatenation, with undefined coerced to the text "undefined" when
the other operand is a string, and numeric addition.  The remaining cases
never arise on the modelled code paths. -/
def jsAdd (a b : JsVal) : JsVal :=
  match a, b with
  | JsVal.str s, JsVal.str t => JsVal.str (s ++ t)
  | JsVal.undef, JsVal.str t => JsVal.str ("undefined" ++ t)
  | JsVal.str s, JsVal.undef => JsVal.str (s ++ "undefined")
  | JsVal.num n, JsVal.num m => JsVal.num (n + m)
  | _, _ => JsVal.undef

/-- Split a character list at every occurrence of the separator; an empty
input yields one empty piece, matching the JavaScript split method. -/
def splitOnChar (sep : Char) : List Char → List (List Char)
  | [] => [[]]
  | c :: cs =>
      let rest := splitOnChar sep cs
      if c = sep then [] :: rest
      else
        match rest with
        | [] => [[c]]
        | r :: rs => (c :: r) :: rs

/-- The JavaScript String.split method with a one-character separator. -/
def jsSplit (s : String) (sep : Char) : List String :=
  (splitOnChar sep s.data).map (fun l => ⟨l⟩)

/-- One item enumerated from a registry key: a value name and its data
(winreg reports both as strings). -/
structure RegistryItem where
  name : String
  value : String
deriving DecidableEq, Repr

/-- One configured server, as stored in buildConfig.defaultTeams and in the
teams argument of mergeDefaultTeams. -/
structure Team where
  name : String
  url : String
deriving DecidableEq, Repr

/-- The fields of buildConfig (imported from ./config/buildConfig) that
settings.js reads: the vendor default team list and the server-management
flag. -/
structure BuildConfig where
  defaultTeams : List Team
  enableServerManagement : Bool
deriving DecidableEq, Repr

/-- settings.js line 34: hasBuildConfigDefaultTeams returns
config.defaultTeams.length > 0. -/
def hasBuildConfigDefaultTeams (bc : BuildConfig) : Bool :=
  bc.defaultTeams.length > 0

/-- settings.js lines 190-199: mergeDefaultTeams pushes a deep copy of the
vendor defaults when they are non-empty, then a deep copy of the caller
supplied servers when enableServerManagement is set.  Deep copies are the
identity on immutable values; the heap-level version below tracks object
identity separately. -/
def mergeDefaultTeams (bc : BuildConfig) (servers : List Team) : List Team :=
  let newServers : List Team := []
  let newServers :=
    if hasBuildConfigDefaultTeams bc then newServers ++ bc.defaultTeams else newServers
  let newServers :=
    if bc.enableServerManagement then newServers ++ servers else newServers
  newServers

/-- An element of the persisted teams array.  The load fallback of init
pushes the raw defaultTeam string into the array (settings.js line 220),
so an element is either a proper team object or a bare string. -/
inductive TeamsEntry where
  | team (t : Team)
  | rawUrl (s : String)
deriving DecidableEq, Repr

/-- The persisted configuration document, with the fields settings.js
touches.  The shape of defaultPreferences is not under src/; the field
types follow the spec (section 3: defaultTeam is an optional string). -/
structure ConfigDoc where
  version : Int
  teams : List TeamsEntry
  defaultTeam : Option String
  enableHardwareAcceleration : Option Bool
deriving DecidableEq, Repr

/-- JavaScript truthiness of config.defaultTeam: an absent field and the
empty string are falsy, any other string is truthy. -/
def jsTruthyStrOpt : Option String → Bool
  | none => false
  | some s => s ≠ ""

/-- Serialization of one teams element, standing for its JSON.stringify
rendering. -/
def serializeTeamsEntry : TeamsEntry → String
  | TeamsEntry.team t =>
      "\x7b\"name\":\"" ++ t.name ++ "\",\"url\":\"" ++ t.url ++ "\"\x7d"
  | TeamsEntry.rawUrl s => "\"" ++ s ++ "\""

/-- Serialization of the document, standing for
JSON.stringify(config, null, two spaces) in writeFileSync (settings.js
line 178); the claims only compare serialized contents for equality and
length, so a flat deterministic rendering is used. -/
def serializeConfig (config : ConfigDoc) : String :=
  "\x7b\"version\":" ++ toString config.version ++ ",\"teams\":[" ++
    String.intercalate "," (config.teams.map serializeTeamsEntry) ++
    "]" ++
    (match config.defaultTeam with
     | some dt => ",\"defaultTeam\":\"" ++ dt ++ "\""
     | none => "") ++
    (match config.enableHardwareAcceleration with
     | some b => ",\"enableHardwareAcceleration\":" ++ toString b
     | none => "") ++
    "\x7d"

/-- The slice of file-system state writeFileSync can observe and modify:
whether the parent directory of the config file exists, and the current
content of the config file (none when absent). -/
structure FsState where
  dirExists : Bool
  fileContent : Option String
deriving DecidableEq, Repr

/-- One file-system operation performed by writeFileSync. -/
inductive FsOp where
  | mkdirOp (dir : String)
  | writeOp (file : String) (data : String)
  | renameOp (src : String) (dst : String)
deriving DecidableEq, Repr

/-- Whether an operation is a rename/move. -/
def FsOp.isRename : FsOp → Bool
  | FsOp.renameOp _ _ => true
  | _ => false

/-- path.dirname: the part of the path before the last separator, or a dot
when there is none. -/
def pathDirname (p : String) : String :=
  let parts := p.splitOn "/"
  if parts.length ≤ 1 then "." else String.intercalate "/" parts.dropLast

/-- The trace of file-system operations writeFileSync performs
(settings.js lines 168-180): it throws before touching the file system
when config.version differs from the current version; otherwise it
creates the parent directory when missing and then writes the serialized
document directly to the config file path. -/
def writeFileSyncOps (current : Int) (dirExists : Bool) (configFile : String)
    (config : ConfigDoc) : Except String (List FsOp) :=
  if config.version ≠ current then
    Except.error ("version " ++ toString config.version ++ " is not equal to " ++
      toString current)
  else
    Except.ok
      ((if dirExists then [] else [FsOp.mkdirOp (pathDirname configFile)]) ++
        [FsOp.writeOp configFile (serializeConfig config)])

/-- State semantics of writeFileSync (settings.js lines 168-180) with an
optional crash point: crash = some k models the process dying after k
characters of the final fs.writeFileSync call have been flushed (the
write opens the target with truncation, so a crash leaves a partial
file).  crash = none is the normal run.  The second component reports the
thrown error, when any. -/
def writeFileSyncRunCrash (current : Int) (st : FsState) (config : ConfigDoc)
    (crash : Option Nat) : FsState × Option String :=
  if config.version ≠ current then
    (st, some ("version " ++ toString config.version ++ " is not equal to " ++
      toString current))
  else
    let st1 : FsState := { st with dirExists := true }
    match crash with
    | none => ({ st1 with fileContent := some (serializeConfig config) }, none)
    | some k =>
        ({ st1 with fileContent := some ((serializeConfig config).take k) },
          some "crash during write")

/-- The catch branch of init (settings.js lines 211-223): on a failed read
the document is rebuilt from the compiled defaults; when the default
document has no teams and a truthy defaultTeam, the raw defaultTeam
string is pushed onto teams and the document is written back at once.
Returns the resulting document, the file-system state, and the error of
the write-back, when one was attempted and threw. -/
def initLoadFallback (current : Int) (st : FsState) (defaults : ConfigDoc) :
    ConfigDoc × FsState × Option String :=
  let config := defaults
  if config.teams.length = 0 && jsTruthyStrOpt config.defaultTeam then
    match config.defaultTeam with
    | some dt =>
        let config2 := { config with teams := config.teams ++ [TeamsEntry.rawUrl dt] }
        let write := writeFileSyncRunCrash current st config2 none
        (config2, write.1, write.2)
    | none => (config, st, none)
  else
    (config, st, none)

/-- Modelled from the spec: the function upgradePreferences lives in
./config/upgradePreferences, which is not under src/.  Following spec
section 4.2, it maps a document at a past schema version to the current
version by composing the version-to-version migrations in ascending
order; migrations is the family of single-step migrations, indexed by the
version they upgrade from. -/
def upgradeChain (migrations : Int → ConfigDoc → ConfigDoc) (current : Int)
    (doc : ConfigDoc) : ConfigDoc :=
  (List.range (current - doc.version).toNat).foldl
    (fun d k => migrations (doc.version + k) d) doc

/-- The try branch of init (settings.js lines 205-210): the document read
from disk is fed to the upgrade chain and written back only when its
version differs from the current one.  The boolean reports whether the
upgrade-and-write path ran. -/
def initLoadStep (current : Int) (migrations : Int → ConfigDoc → ConfigDoc)
    (st : FsState) (config : ConfigDoc) : ConfigDoc × FsState × Bool :=
  if config.version ≠ current then
    let config2 := upgradeChain migrations current config
    let write := writeFileSyncRunCrash current st config2 none
    (config2, write.1, true)
  else
    (config, st, false)

/-- An element of a JavaScript array whose elements are either single
values or whole arrays pushed as one element. -/
inductive JsArrayElem (α : Type) where
  | elem (a : α)
  | arr (l : List α)
deriving DecidableEq, Repr

/-- The win32 policy-composition step of init (part_000 lines 204-212,
the only live copy of this step in the repository; in settings.js the
same block, lines 228-244, is commented out).  When the policy prevents
adding servers, config.teams is assigned the GPO server list; otherwise
config.teams.push(list) appends the whole list as a single element.  The
element type is abstracted; prevented stands for the value of the policy
predicate. -/
def applyGPOPolicy {α : Type} (prevented : Bool) (gpoList : List α)
    (teams : List (JsArrayElem α)) : List (JsArrayElem α) :=
  if prevented then gpoList.map JsArrayElem.elem
  else teams ++ [JsArrayElem.arr gpoList]

/-- Errors thrown by the modelled JavaScript code. -/
inductive JsErr where
  | registryItemNotFound
  | typeError (msg : String)
  | outOfFuel
deriving DecidableEq, Repr

/-- One server record built by the decode loop of
getDefaultServerListFromGPO: the code assigns name, index and url
properties on a fresh array, all holding dynamic values. -/
structure GpoServer where
  name : JsVal
  index : JsVal
  url : JsVal
deriving DecidableEq, Repr

/-- The decode loop of getDefaultServerListFromGPO (settings.js lines
124-142), embedded with its shared loop counter: the outer loop and both
inner token loops use the same var-scoped variable i, so after the inner
loop runs, i equals the token count L of the current entry name, the url
is then read from registryItems[L] (a TypeError when L is out of range,
since .value is read from undefined), and the outer increment resumes
from L + 1.  The typeof guard compares the first split token (always a
string) against "number", so the else branch that would decode an order
index is dead.  One fuel unit is spent per outer iteration; a
terminating JavaScript run visits pairwise distinct values of i (the
successor of i depends only on the entry at i, so a repeat would cycle
forever), hence at most registryItems.length iterations, and the fuel
supplied by getDefaultServerListFromGPO is exhausted only on runs that
diverge in JavaScript. -/
def gpoLoop (registryItems : List RegistryItem) :
    Nat → Nat → List GpoServer → Except JsErr (List GpoServer)
  | Nat.succ fuel, i, servers =>
      if h : i < registryItems.length then
        let item := registryItems.get ⟨i, h⟩
        let nameTokenized : List JsVal := (jsSplit item.name '|').map JsVal.str
        let server : GpoServer :=
          if jsTypeof (nameTokenized.headD JsVal.undef) ≠ "number" then
            { name := nameTokenized.foldl jsAdd JsVal.undef,
              index := JsVal.boolean false, url := JsVal.undef }
          else
            { name := (nameTokenized.drop 1).foldl jsAdd JsVal.undef,
              index := nameTokenized.headD JsVal.undef, url := JsVal.undef }
        let i2 := nameTokenized.length
        match registryItems.get? i2 with
        | none => Except.error (JsErr.typeError "cannot read property value of undefined")
        | some itemAtI2 =>
            gpoLoop registryItems fuel (i2 + 1)
              (servers ++ [{ server with url := JsVal.str itemAtI2.value }])
      else
        Except.ok servers
  | 0, _, _ => Except.error JsErr.outOfFuel

/-- getDefaultServerListFromGPO (settings.js lines 97-145) applied to the
items enumerated from the policy registry key: the decode loop run from
i = 0 with an empty accumulator. -/
def getDefaultServerListFromGPO (registryItems : List RegistryItem) :
    Except JsErr (List GpoServer) :=
  gpoLoop registryItems (registryItems.length + 1) 0 []

/-- Outcome of invoking a JavaScript callback: it returned a value, or it
threw. -/
inductive CbOutcome where
  | ret (v : JsVal)
  | thrown (e : JsErr)
deriving DecidableEq, Repr

/-- The body of the callback passed to regKey.values inside
getRegistryItemValue (settings.js lines 46-60): when the enumeration
reported an error it throws RegistryItemNotFoundException; otherwise it
scans the items for the requested name and returns its value, and after
a completed scan the counter equals the item count, so it throws
RegistryItemNotFoundException.  err models the err argument of the
callback being truthy. -/
def getRegistryItemValueCallback (err : Bool) (items : List RegistryItem)
    (item : String) : CbOutcome :=
  if err then CbOutcome.thrown JsErr.registryItemNotFound
  else
    match items.find? (fun it => it.name = item) with
    | some it => CbOutcome.ret (JsVal.str it.value)
    | none => CbOutcome.thrown JsErr.registryItemNotFound

/-- getRegistryItemValue (settings.js lines 45-61): regKey.values invokes
the callback and discards whatever the callback returns, and the
enclosing function has no return statement of its own, so a normal run
evaluates to undefined; an exception thrown by the callback propagates.
(The callback is modelled as invoked synchronously, the reading under
which a thrown RegistryItemNotFoundException reaches the callers of this
function.) -/
def getRegistryItemValue (err : Bool) (items : List RegistryItem)
    (item : String) : Except JsErr JsVal :=
  match getRegistryItemValueCallback err items item with
  | CbOutcome.ret _ => Except.ok JsVal.undef
  | CbOutcome.thrown e => Except.error e

/-- The observable state of the two registry locations
isAddingNewServerPreventedByGPO consults: for each of HKCU and HKLM, an
error flag for the enumeration and the enumerated items. -/
structure RegQueryState where
  hkcuErr : Bool
  hkcuItems : List RegistryItem
  hklmErr : Bool
  hklmItems : List RegistryItem
deriving DecidableEq, Repr

/-- isAddingNewServerPreventedByGPO (settings.js lines 63-95): each try
block looks up PreventAddNewServer in one registry scope, returns true
when the looked-up value is strictly equal to 1, swallows
RegistryItemNotFoundException and rethrows anything else; when neither
block returned true or rethrew, the function returns false. -/
def isAddingNewServerPreventedByGPO (rs : RegQueryState) : Except JsErr Bool :=
  let block1 : Except JsErr (Option Bool) :=
    match getRegistryItemValue rs.hkcuErr rs.hkcuItems "PreventAddNewServer" with
    | Except.ok v => if v = JsVal.num 1 then Except.ok (some true) else Except.ok none
    | Except.error JsErr.registryItemNotFound => Except.ok none
    | Except.error e => Except.error e
  match block1 with
  | Except.error e => Except.error e
  | Except.ok (some b) => Except.ok b
  | Except.ok none =>
      match getRegistryItemValue rs.hklmErr rs.hklmItems "PreventAddNewServer" with
      | Except.ok v => if v = JsVal.num 1 then Except.ok true else Except.ok false
      | Except.error JsErr.registryItemNotFound => Except.ok false
      | Except.error e => Except.error e

/-- A heap of team objects addressed by numeric references, used to track
object identity across the JSON deep copies of mergeDefaultTeams.  next
is the next fresh reference. -/
structure Heap where
  next : Nat
  store : List (Nat × Team)
deriving DecidableEq, Repr

/-- Dereference a team object. -/
def Heap.lookup (h : Heap) (r : Nat) : Option Team :=
  (h.store.find? (fun p => p.1 = r)).map (fun p => p.2)

/-- Allocate a fresh team object, returning the extended heap and the
fresh reference. -/
def Heap.alloc (h : Heap) (t : Team) : Heap × Nat :=
  ({ next := h.next + 1, store := (h.next, t) :: h.store }, h.next)

/-- JSON.parse(JSON.stringify(list)) on a list of team objects: a fresh
object with an equal payload is allocated for every element, in order. -/
def deepCopyTeams (h : Heap) : List Nat → Heap × List Nat
  | [] => (h, [])
  | r :: rs =>
      match h.lookup r with
      | some t =>
          let alloc1 := h.alloc t
          let rest := deepCopyTeams alloc1.1 rs
          (rest.1, alloc1.2 :: rest.2)
      | none => deepCopyTeams h rs

/-- mergeDefaultTeams (settings.js lines 190-199) at the heap level, with
the team lists passed as lists of object references: each push spreads a
JSON deep copy of its source list, so every element of the result is a
freshly allocated object. -/
def mergeDefaultTeamsH (h : Heap) (bcDefaultTeams : List Nat)
    (enableServerManagement : Bool) (servers : List Nat) : Heap × List Nat :=
  let step1 :=
    if bcDefaultTeams.length > 0 then deepCopyTeams h bcDefaultTeams else (h, [])
  let step2 :=
    if enableServerManagement then
      let copies := deepCopyTeams step1.1 servers
      (copies.1, step1.2 ++ copies.2)
    else step1
  step2

/-- Helper: mergeDefaultTeams is the vendor defaults followed by the user
servers when server management is enabled, and the vendor defaults alone
otherwise. -/
theorem mergeDefaultTeams_eq (bc : BuildConfig) (servers : List Team) :
    mergeDefaultTeams bc servers =
      bc.defaultTeams ++ (if bc.enableServerManagement then servers else []) := by
  unfold mergeDefaultTeams hasBuildConfigDefaultTeams
  rcases hd : bc.defaultTeams with _ | ⟨t, ts⟩ <;>
    rcases hm : bc.enableServerManagement <;> simp [hd, hm]

/-- C7: mergeDefaultTeams returns exactly the vendor defaults, in their
configured order, when server management is disabled (every user entry
dropped), and the vendor defaults followed by the user teams in their
stored order when it is enabled. -/
theorem mergeDefaultTeams_serverManagement (bc : BuildConfig) (servers : List Team) :
    (bc.enableServerManagement = false →
      mergeDefaultTeams bc servers = bc.defaultTeams) ∧
    (bc.enableServerManagement = true →
      mergeDefaultTeams bc servers = bc.defaultTeams ++ servers) := by
  constructor <;> intro h <;> rw [mergeDefaultTeams_eq, h] <;> simp

/-- Witness for C7 at concrete inputs. -/
theorem mergeDefaultTeams_serverManagement_witness :
    mergeDefaultTeams ⟨[⟨"Vendor", "a"⟩], false⟩ [⟨"mine", "a"⟩] = [⟨"Vendor", "a"⟩] ∧
    mergeDefaultTeams ⟨[⟨"Vendor", "a"⟩], true⟩ [⟨"mine", "a"⟩] =
      [⟨"Vendor", "a"⟩] ++ [⟨"mine", "a"⟩] :=
  ⟨(mergeDefaultTeams_serverManagement ⟨[⟨"Vendor", "a"⟩], false⟩ [⟨"mine", "a"⟩]).1 rfl,
   (mergeDefaultTeams_serverManagement ⟨[⟨"Vendor", "a"⟩], true⟩ [⟨"mine", "a"⟩]).2 rfl⟩

/-- Counterexample to C1: with server management enabled, merging the
vendor default url a with a user team for the same url a yields two
entries with url a (the vendor entry first, the user entry second), not
a single deduplicated entry owned by the user. -/
theorem mergeDefaultTeams_duplicate_url_counterexample :
    mergeDefaultTeams ⟨[⟨"Vendor", "a"⟩], true⟩ [⟨"mine", "a"⟩] =
      [⟨"Vendor", "a"⟩, ⟨"mine", "a"⟩] ∧
    ¬ ((mergeDefaultTeams ⟨[⟨"Vendor", "a"⟩], true⟩ [⟨"mine", "a"⟩]).countP
        (fun t => t.url == "a") ≤ 1) := by
  constructor <;> decide

/-- C1 (amended): mergeDefaultTeams performs no deduplication by url: with
server management enabled, for every url the output contains exactly as
many entries with that url as the vendor defaults and the user teams
combined, so a vendor default and a user team sharing a url both survive
(the vendor entry first, the user entry after it, keeping its display
name). -/
theorem mergeDefaultTeams_no_dedup (bc : BuildConfig) (servers : List Team)
    (u : String) (h : bc.enableServerManagement = true) :
    (mergeDefaultTeams bc servers).countP (fun t => t.url == u) =
      bc.defaultTeams.countP (fun t => t.url == u) +
        servers.countP (fun t => t.url == u) := by
  rw [mergeDefaultTeams_eq, h]
  simp [List.countP_append]

/-- Witness for C1 (amended) at concrete inputs. -/
theorem mergeDefaultTeams_no_dedup_witness :
    (mergeDefaultTeams ⟨[⟨"Vendor", "a"⟩], true⟩ [⟨"mine", "a"⟩]).countP
        (fun t => t.url == "a") =
      ([(⟨"Vendor", "a"⟩ : Team)].countP (fun t => t.url == "a")) +
        ([(⟨"mine", "a"⟩ : Team)].countP (fun t => t.url == "a")) :=
  mergeDefaultTeams_no_dedup ⟨[⟨"Vendor", "a"⟩], true⟩ [⟨"mine", "a"⟩] "a" rfl

/-- C6: writeFileSync (the body of save) rejects a document whose version
differs from the current version before performing any file-system
operation: the state is returned unchanged, an error is reported, and
the operation trace is empty (an error, not a list of operations); for a
document at the current version the guard does not fire and the
operation trace is produced. -/
theorem writeFileSync_version_guard (v : Int) (st : FsState) (cfg : ConfigDoc)
    (crash : Option Nat) (d : Bool) (f : String) :
    (cfg.version ≠ v →
      (writeFileSyncRunCrash v st cfg crash).1 = st ∧
      (writeFileSyncRunCrash v st cfg crash).2.isSome = true ∧
      writeFileSyncOps v d f cfg =
        Except.error ("version " ++ toString cfg.version ++ " is not equal to " ++
          toString v)) ∧
    (cfg.version = v →
      writeFileSyncOps v d f cfg =
        Except.ok ((if d then [] else [FsOp.mkdirOp (pathDirname f)]) ++
          [FsOp.writeOp f (serializeConfig cfg)])) := by
  constructor <;> intro h <;>
    simp [writeFileSyncRunCrash, writeFileSyncOps, h]

/-- Witness for C6 at concrete inputs: a version-2 document against
current version 1, and a version-1 document against current version 1. -/
theorem writeFileSync_version_guard_witness :
    ((writeFileSyncRunCrash 1 ⟨true, some "OLDCONTENT"⟩ ⟨2, [], none, none⟩ none).1 =
        ⟨true, some "OLDCONTENT"⟩ ∧
      (writeFileSyncRunCrash 1 ⟨true, some "OLDCONTENT"⟩ ⟨2, [], none, none⟩ none).2.isSome = true ∧
      writeFileSyncOps 1 true "dir/config.json" ⟨2, [], none, none⟩ =
        Except.error ("version " ++ toString (2 : Int) ++ " is not equal to " ++
          toString (1 : Int))) ∧
    writeFileSyncOps 1 true "dir/config.json" ⟨1, [], none, none⟩ =
      Except.ok ((if true then [] else [FsOp.mkdirOp (pathDirname "dir/config.json")]) ++
        [FsOp.writeOp "dir/config.json" (serializeConfig ⟨1, [], none, none⟩)]) :=
  ⟨(writeFileSync_version_guard 1 ⟨true, some "OLDCONTENT"⟩ ⟨2, [], none, none⟩ none true
      "dir/config.json").1 (by decide),
   (writeFileSync_version_guard 1 ⟨true, some "OLDCONTENT"⟩ ⟨1, [], none, none⟩ none true
      "dir/config.json").2 rfl⟩

/-- Counterexample to C3: writeFileSync performs no rename operation at
all (every operation of its trace is a direct mkdir or write), and a
crash partway through the write destroys the previously persisted
content: with previous content OLDCONTENT, a crash after three flushed
characters leaves the file holding a three-character partial document,
not OLDCONTENT. -/
theorem writeFileSync_not_atomic_counterexample :
    ((writeFileSyncOps 1 true "dir/config.json" ⟨1, [], none, none⟩).toOption.getD []).all
        (fun op => !op.isRename) = true ∧
    (writeFileSyncRunCrash 1 ⟨true, some "OLDCONTENT"⟩ ⟨1, [], none, none⟩
        (some 3)).1.fileContent ≠ some "OLDCONTENT" := by
  constructor <;> decide

/-- C3 (amended): writeFileSync is not atomic: after the version guard it
writes the serialized document directly to the final path (no temporary
file, no rename anywhere in its trace), so a crash after k flushed
characters leaves the file holding exactly the first k characters of the
new serialization, losing the previous content; only a version-guard
failure leaves the previous state intact. -/
theorem writeFileSync_direct_write (v : Int) (st : FsState) (cfg : ConfigDoc)
    (d : Bool) (f : String) (k : Nat) (h : cfg.version = v) :
    (writeFileSyncOps v d f cfg).toOption.getD [] =
      (if d then [] else [FsOp.mkdirOp (pathDirname f)]) ++
        [FsOp.writeOp f (serializeConfig cfg)] ∧
    ((writeFileSyncOps v d f cfg).toOption.getD []).all (fun op => !op.isRename) = true ∧
    (writeFileSyncRunCrash v st cfg (some k)).1.fileContent =
      some ((serializeConfig cfg).take k) := by
  refine ⟨?_, ?_, ?_⟩ <;> rcases d <;>
    simp [writeFileSyncOps, writeFileSyncRunCrash, h, Except.toOption, FsOp.isRename]

/-- Witness for C3 (amended) at concrete inputs. -/
theorem writeFileSync_direct_write_witness :
    (writeFileSyncOps 1 true "dir/config.json" ⟨1, [], none, none⟩).toOption.getD [] =
      (if true then [] else [FsOp.mkdirOp (pathDirname "dir/config.json")]) ++
        [FsOp.writeOp "dir/config.json" (serializeConfig ⟨1, [], none, none⟩)] ∧
    ((writeFileSyncOps 1 true "dir/config.json" ⟨1, [], none, none⟩).toOption.getD []).all
        (fun op => !op.isRename) = true ∧
    (writeFileSyncRunCrash 1 ⟨true, some "OLDCONTENT"⟩ ⟨1, [], none, none⟩
        (some 3)).1.fileContent = some ((serializeConfig ⟨1, [], none, none⟩).take 3) :=
  writeFileSync_direct_write 1 ⟨true, some "OLDCONTENT"⟩ ⟨1, [], none, none⟩ true
    "dir/config.json" 3 rfl

/-- Counterexample to C5: on the fallback path with no teams in the
default document and defaultTeam set to https://seed, the resulting
teams list is not a one-element list of a Team record whose url is
https://seed (it holds the bare string instead). -/
theorem initLoadFallback_raw_string_counterexample :
    ¬ ∃ t : Team,
        (initLoadFallback 1 ⟨false, none⟩ ⟨1, [], some "https://seed", none⟩).1.teams =
          [TeamsEntry.team t] ∧ t.url = "https://seed" := by
  rintro ⟨t, h, -⟩
  have e : (initLoadFallback 1 ⟨false, none⟩ ⟨1, [], some "https://seed", none⟩).1.teams =
      [TeamsEntry.rawUrl "https://seed"] := rfl
  rw [e] at h
  simp at h

/-- C5 (amended): when load falls back to compiled defaults, the default
document has no teams and a truthy defaultTeam, and the defaults are at
the current version, init pushes the raw defaultTeam string itself into
teams (one entry, a bare string rather than a Team record with a url
field) and immediately writes the resulting document to disk without
error. -/
theorem initLoadFallback_seeds_raw_url (current : Int) (st : FsState)
    (defaults : ConfigDoc) (u : String) (h1 : defaults.teams = [])
    (h2 : defaults.defaultTeam = some u) (h3 : u ≠ "")
    (h4 : defaults.version = current) :
    (initLoadFallback current st defaults).1.teams = [TeamsEntry.rawUrl u] ∧
    (initLoadFallback current st defaults).2.1.fileContent =
      some (serializeConfig (initLoadFallback current st defaults).1) ∧
    (initLoadFallback current st defaults).2.2 = none := by
  simp [initLoadFallback, jsTruthyStrOpt, h1, h2, h3, h4, writeFileSyncRunCrash]

/-- Witness for C5 (amended) at concrete inputs. -/
theorem initLoadFallback_seeds_raw_url_witness :
    (initLoadFallback 1 ⟨false, none⟩ ⟨1, [], some "https://seed", none⟩).1.teams =
      [TeamsEntry.rawUrl "https://seed"] ∧
    (initLoadFallback 1 ⟨false, none⟩ ⟨1, [], some "https://seed", none⟩).2.1.fileContent =
      some (serializeConfig
        (initLoadFallback 1 ⟨false, none⟩ ⟨1, [], some "https://seed", none⟩).1) ∧
    (initLoadFallback 1 ⟨false, none⟩ ⟨1, [], some "https://seed", none⟩).2.2 = none :=
  initLoadFallback_seeds_raw_url 1 ⟨false, none⟩ ⟨1, [], some "https://seed", none⟩
    "https://seed" rfl rfl (by decide) rfl

/-- C8: a document whose version equals the current version is returned
unchanged by the upgrade chain (identity transform), and the load path
of init neither upgrades nor rewrites such a document. -/
theorem upgradeChain_identity_at_current (migrations : Int → ConfigDoc → ConfigDoc)
    (current : Int) (st : FsState) (doc : ConfigDoc) (h : doc.version = current) :
    upgradeChain migrations current doc = doc ∧
    initLoadStep current migrations st doc = (doc, st, false) := by
  have hz : (current - doc.version).toNat = 0 := by rw [h]; simp
  constructor
  · simp [upgradeChain, hz]
  · simp [initLoadStep, h]

/-- Witness for C8 at concrete inputs, with a migration family that does
move versions forward on stale documents. -/
theorem upgradeChain_identity_at_current_witness :
    upgradeChain (fun v d => { d with version := v + 1 }) 3 ⟨3, [], none, none⟩ =
      ⟨3, [], none, none⟩ ∧
    initLoadStep 3 (fun v d => { d with version := v + 1 }) ⟨true, none⟩
        ⟨3, [], none, none⟩ = (⟨3, [], none, none⟩, ⟨true, none⟩, false) :=
  upgradeChain_identity_at_current (fun v d => { d with version := v + 1 }) 3
    ⟨true, none⟩ ⟨3, [], none, none⟩ rfl

/-- Counterexample to C2: with the policy not preventing servers, a
one-element policy list is not appended as an individual element after
the merged list (it is pushed as a single nested array element
instead). -/
theorem applyGPOPolicy_append_counterexample :
    applyGPOPolicy false [(⟨"Policy", "p"⟩ : Team)]
        [JsArrayElem.elem (⟨"User", "a"⟩ : Team)] ≠
      [JsArrayElem.elem (⟨"User", "a"⟩ : Team),
        JsArrayElem.elem (⟨"Policy", "p"⟩ : Team)] := by
  decide

/-- C2 (amended): in the live policy-composition step of init (part_000),
when adding servers is prevented the teams list becomes exactly the
policy list; when it is not prevented, the whole policy list is pushed
onto the merged teams list as one single nested element, with no
per-element append and no deduplication by url. -/
theorem applyGPOPolicy_branches {α : Type} (prevented : Bool) (gpoList : List α)
    (teams : List (JsArrayElem α)) :
    (prevented = true →
      applyGPOPolicy prevented gpoList teams = gpoList.map JsArrayElem.elem) ∧
    (prevented = false →
      applyGPOPolicy prevented gpoList teams = teams ++ [JsArrayElem.arr gpoList]) := by
  constructor <;> intro h <;> simp [applyGPOPolicy, h]

/-- Witness for C2 (amended) at concrete inputs: both branches. -/
theorem applyGPOPolicy_branches_witness :
    applyGPOPolicy true [(⟨"Policy", "p"⟩ : Team)]
        [JsArrayElem.elem (⟨"User", "a"⟩ : Team)] =
      [(⟨"Policy", "p"⟩ : Team)].map JsArrayElem.elem ∧
    applyGPOPolicy false [(⟨"Policy", "p"⟩ : Team)]
        [JsArrayElem.elem (⟨"User", "a"⟩ : Team)] =
      [JsArrayElem.elem (⟨"User", "a"⟩ : Team)] ++
        [JsArrayElem.arr [(⟨"Policy", "p"⟩ : Team)]] :=
  ⟨(applyGPOPolicy_branches true [(⟨"Policy", "p"⟩ : Team)]
      [JsArrayElem.elem (⟨"User", "a"⟩ : Team)]).1 rfl,
   (applyGPOPolicy_branches false [(⟨"Policy", "p"⟩ : Team)]
      [JsArrayElem.elem (⟨"User", "a"⟩ : Team)]).2 rfl⟩

/-- C4 fails on the code: on the two policy entries 2|Beta and 1|Alpha the
decode loop throws a TypeError (the shared loop counter ends the inner
token loop at 2, and the url is then read from the out-of-range entry 2
of the item array), instead of returning the two decoded teams sorted by
order index; and on two index-less entries Alpha and Beta it returns a
single record whose name is the string undefined concatenated with the
first entry name, whose index is the boolean false, and whose url is
stolen from the second entry, which it never decodes. -/
theorem getDefaultServerListFromGPO_failing_eval :
    getDefaultServerListFromGPO [⟨"2|Beta", "https://b"⟩, ⟨"1|Alpha", "https://a"⟩] =
      Except.error (JsErr.typeError "cannot read property value of undefined") ∧
    getDefaultServerListFromGPO [⟨"Alpha", "https://a"⟩, ⟨"Beta", "https://b"⟩] =
      Except.ok [{ name := JsVal.str "undefinedAlpha", index := JsVal.boolean false,
                   url := JsVal.str "https://b" }] := by
  constructor <;> rfl

/-- Helper: the callback of getRegistryItemValue only ever throws
RegistryItemNotFoundException. -/
theorem getRegistryItemValueCallback_thrown (err : Bool) (items : List RegistryItem)
    (item : String) (e : JsErr)
    (h : getRegistryItemValueCallback err items item = CbOutcome.thrown e) :
    e = JsErr.registryItemNotFound := by
  unfold getRegistryItemValueCallback at h
  split at h
  · simp at h; exact h.symm
  · split at h <;> simp at h; exact h.symm

/-- Helper: getRegistryItemValue either evaluates to undefined or throws
RegistryItemNotFoundException. -/
theorem getRegistryItemValue_cases (err : Bool) (items : List RegistryItem)
    (item : String) :
    getRegistryItemValue err items item = Except.ok JsVal.undef ∨
    getRegistryItemValue err items item = Except.error JsErr.registryItemNotFound := by
  unfold getRegistryItemValue
  cases hc : getRegistryItemValueCallback err items item with
  | ret v => left; rfl
  | thrown e =>
      right
      rw [getRegistryItemValueCallback_thrown err items item e hc]

/-- C9: getRegistryItemValue never propagates a value found inside the
values callback: every run evaluates to undefined or throws
RegistryItemNotFoundException; consequently the strict comparison of its
result against 1 inside isAddingNewServerPreventedByGPO never holds, no
other exception can escape, and isAddingNewServerPreventedByGPO returns
false on every registry state. -/
theorem getRegistryItemValue_undefined :
    (∀ (err : Bool) (items : List RegistryItem) (item : String),
        getRegistryItemValue err items item = Except.ok JsVal.undef ∨
        getRegistryItemValue err items item =
          Except.error JsErr.registryItemNotFound) ∧
    (∀ rs : RegQueryState, isAddingNewServerPreventedByGPO rs = Except.ok false) := by
  refine ⟨getRegistryItemValue_cases, fun rs => ?_⟩
  unfold isAddingNewServerPreventedByGPO
  rcases getRegistryItemValue_cases rs.hkcuErr rs.hkcuItems "PreventAddNewServer"
    with h1 | h1 <;>
  rcases getRegistryItemValue_cases rs.hklmErr rs.hklmItems "PreventAddNewServer"
    with h2 | h2 <;>
  rw [h1, h2] <;> simp

/-- Helper: allocation does not change the object a previously allocated
reference points to. -/
theorem Heap.lookup_alloc_lt (h : Heap) (t : Team) (r : Nat) (hr : r < h.next) :
    (h.alloc t).1.lookup r = h.lookup r := by
  simp only [Heap.alloc, Heap.lookup]
  rw [List.find?_cons_of_neg]
  simp
  omega

/-- Helper: allocation only moves the fresh-reference bound up. -/
theorem Heap.alloc_next (h : Heap) (t : Team) : (h.alloc t).1.next = h.next + 1 := rfl

/-- Helper: the deep copy only moves the fresh-reference bound up. -/
theorem deepCopyTeams_next_le (h : Heap) (rs : List Nat) :
    h.next ≤ (deepCopyTeams h rs).1.next := by
  induction rs generalizing h with
  | nil => simp [deepCopyTeams]
  | cons x xs ih =>
      unfold deepCopyTeams
      cases hl : h.lookup x with
      | none => simpa [hl] using ih h
      | some t =>
          simp only [hl]
          have h1 := ih (h.alloc t).1
          rw [Heap.alloc_next] at h1
          omega

/-- Helper: the deep copy leaves every previously allocated reference
pointing at its old object. -/
theorem deepCopyTeams_lookup_frame (h : Heap) (rs : List Nat) (r : Nat)
    (hr : r < h.next) : (deepCopyTeams h rs).1.lookup r = h.lookup r := by
  induction rs generalizing h with
  | nil => rfl
  | cons x xs ih =>
      unfold deepCopyTeams
      cases hl : h.lookup x with
      | none => simpa [hl] using ih h hr
      | some t =>
          simp only [hl]
          have h1 : r < (h.alloc t).1.next := by rw [Heap.alloc_next]; omega
          rw [ih (h.alloc t).1 h1]
          exact Heap.lookup_alloc_lt h t r hr

/-- Helper: every reference returned by the deep copy is fresh with
respect to the starting heap. -/
theorem deepCopyTeams_fresh (h : Heap) (rs : List Nat) :
    ∀ r ∈ (deepCopyTeams h rs).2, h.next ≤ r := by
  induction rs generalizing h with
  | nil => simp [deepCopyTeams]
  | cons x xs ih =>
      unfold deepCopyTeams
      cases hl : h.lookup x with
      | none => simpa [hl] using ih h
      | some t =>
          simp only [hl]
          intro r hr
          rcases List.mem_cons.mp hr with h2 | h2
          · have : (h.alloc t).2 = h.next := rfl
            omega
          · have h3 := ih (h.alloc t).1 r h2
            rw [Heap.alloc_next] at h3
            omega

/-- C10: mergeDefaultTeams never mutates its inputs and shares no objects
with them: every reference already allocated before the call still
points at its old object afterwards, every reference in the returned
list is freshly allocated, and, when the input lists refer to previously
allocated objects, the returned list shares no reference with either
input list, so mutating the result cannot alter the inputs. -/
theorem mergeDefaultTeamsH_fresh_and_frame (h : Heap) (bc : List Nat) (sm : Bool)
    (servers : List Nat) (hbc : ∀ r ∈ bc, r < h.next)
    (hsv : ∀ r ∈ servers, r < h.next) :
    (∀ r, r < h.next →
      (mergeDefaultTeamsH h bc sm servers).1.lookup r = h.lookup r) ∧
    (∀ r ∈ (mergeDefaultTeamsH h bc sm servers).2, h.next ≤ r) ∧
    (∀ r ∈ (mergeDefaultTeamsH h bc sm servers).2, r ∉ bc ∧ r ∉ servers) := by
  have main :
      (∀ r, r < h.next →
        (mergeDefaultTeamsH h bc sm servers).1.lookup r = h.lookup r) ∧
      (∀ r ∈ (mergeDefaultTeamsH h bc sm servers).2, h.next ≤ r) := by
    unfold mergeDefaultTeamsH
    rcases sm with _ | _
    · by_cases h1 : bc.length > 0
      · simp only [h1, if_true, Bool.false_eq_true, if_false]
        exact ⟨fun r hr => deepCopyTeams_lookup_frame h bc r hr,
          deepCopyTeams_fresh h bc⟩
      · simp [h1]
    · by_cases h1 : bc.length > 0
      · simp only [h1, if_true]
        constructor
        · intro r hr
          have hr2 : r < (deepCopyTeams h bc).1.next := by
            have := deepCopyTeams_next_le h bc
            omega
          rw [deepCopyTeams_lookup_frame (deepCopyTeams h bc).1 servers r hr2]
          exact deepCopyTeams_lookup_frame h bc r hr
        · intro r hr
          rcases List.mem_append.mp hr with h2 | h2
          · exact deepCopyTeams_fresh h bc r h2
          · have h3 := deepCopyTeams_fresh (deepCopyTeams h bc).1 servers r h2
            have h4 := deepCopyTeams_next_le h bc
            omega
      · simp only [h1, if_false, if_true]
        constructor
        · intro r hr
          exact deepCopyTeams_lookup_frame h servers r hr
        · intro r hr
          simp only [List.nil_append] at hr
          exact deepCopyTeams_fresh h servers r hr
  refine ⟨main.1, main.2, fun r hr => ?_⟩
  have hge := main.2 r hr
  constructor
  · intro hmem
    have := hbc r hmem
    omega
  · intro hmem
    have := hsv r hmem
    omega

/-- Witness for C10 at a concrete heap holding one vendor default and one
user team that share a url: the vendor reference and the user reference
still resolve to their old objects after the merge, and the returned
references are the fresh ones. -/
theorem mergeDefaultTeamsH_fresh_and_frame_witness :
    (mergeDefaultTeamsH ⟨2, [(0, ⟨"Vendor", "a"⟩), (1, ⟨"mine", "a"⟩)]⟩ [0] true
        [1]).1.lookup 0 =
      (⟨2, [(0, ⟨"Vendor", "a"⟩), (1, ⟨"mine", "a"⟩)]⟩ : Heap).lookup 0 ∧
    (mergeDefaultTeamsH ⟨2, [(0, ⟨"Vendor", "a"⟩), (1, ⟨"mine", "a"⟩)]⟩ [0] true
        [1]).1.lookup 1 =
      (⟨2, [(0, ⟨"Vendor", "a"⟩), (1, ⟨"mine", "a"⟩)]⟩ : Heap).lookup 1 ∧
    (mergeDefaultTeamsH ⟨2, [(0, ⟨"Vendor", "a"⟩), (1, ⟨"mine", "a"⟩)]⟩ [0] true
        [1]).2 = [2, 3] :=
  ⟨(mergeDefaultTeamsH_fresh_and_frame
      ⟨2, [(0, ⟨"Vendor", "a"⟩), (1, ⟨"mine", "a"⟩)]⟩ [0] true [1] (by decide)
      (by decide)).1 0 (by decide),
   (mergeDefaultTeamsH_fresh_and_frame
      ⟨2, [(0, ⟨"Vendor", "a"⟩), (1, ⟨"mine", "a"⟩)]⟩ [0] true [1] (by decide)
      (by decide)).1 1 (by decide),
   by decide⟩

end Settings
